import Mathlib

namespace CloudTrace

/-!
Shallow embedding of the Trace Writer of this repository
(`src/src/config.ts`, class `TraceWriter`), together with proofs about it.

JavaScript objects used as string-to-string maps (`LabelObject`) are
modelled as insertion-ordered association lists with unique keys;
`Object.assign(target, source)` is modelled by `objAssign`, which writes
every key/value pair of `source` into `target` in order, overwriting the
value of a key that is already present and appending fresh keys at the end,
exactly as JavaScript property assignment does.

Machine-level concerns (real timers, promise scheduling) are modelled by an
explicit event list: the armed `setTimeout` of `scheduleFlush` and the armed
`setImmediate` of `queueTrace` are recorded in the writer state and fire when
the corresponding event is processed.
-/

/-- Span kinds, as used by `writeSpan` (`spanData.kind === SpanKind.RPC_SERVER`). -/
inductive SpanKind where
  | RPC_SERVER
  | RPC_CLIENT
  | SPAN_KIND_UNSPECIFIED
deriving DecidableEq

/-- A string-to-string JavaScript object, as an insertion-ordered association list. -/
abbrev LabelObject := List (String × String)

/-- Property lookup on a JavaScript object (keys are unique, first match). -/
def objGet : LabelObject → String → Option String
  | [], _ => none
  | p :: rest, k => if p.1 = k then some p.2 else objGet rest k

/-- Property assignment `target[k] = v` on a JavaScript object: overwrites the
value of an existing key in place, appends a fresh key at the end. -/
def objSet : LabelObject → String → String → LabelObject
  | [], k, v => [(k, v)]
  | p :: rest, k, v => if p.1 = k then (k, v) :: rest else p :: objSet rest k v

/-- `Object.assign(target, source)`: assigns every own property of `source`
onto `target`, in order, overwriting on key collision. -/
def objAssign (target source : LabelObject) : LabelObject :=
  source.foldl (fun acc p => objSet acc p.1 p.2) target

/-- A span, with the fields that `writeSpan` and the wire payload use
(`spanId`, `name`, `kind`, `startTime`, `endTime`, `labels`). -/
structure TraceSpan where
  spanId : String
  name : String
  kind : SpanKind
  startTime : String
  endTime : String
  labels : LabelObject
deriving DecidableEq

/-- A trace: a `projectId` (stamped at enqueue time), a `traceId`, and spans. -/
structure Trace where
  projectId : String
  traceId : String
  spans : List TraceSpan
deriving DecidableEq

/-- Body of the first loop of `TraceWriter#writeSpan`: a span whose
`endTime` is the empty string is stamped with the current time
(`new Date().toISOString()`, passed in here as `now`). -/
def stampSpan (now : String) (sp : TraceSpan) : TraceSpan :=
  if sp.endTime = "" then { sp with endTime := now } else sp

/-- First loop of `TraceWriter#writeSpan`. -/
def stampEndTimes (now : String) (spans : List TraceSpan) : List TraceSpan :=
  spans.map (stampSpan now)

/-- Body of the second loop of `TraceWriter#writeSpan`: for a span of kind
`RPC_SERVER`, `Object.assign(spanData.labels, this.defaultLabels)`. -/
def mergeSpan (defaults : LabelObject) (sp : TraceSpan) : TraceSpan :=
  if sp.kind = SpanKind.RPC_SERVER then { sp with labels := objAssign sp.labels defaults }
  else sp

/-- Second loop of `TraceWriter#writeSpan`. -/
def mergeDefaultLabels (defaults : LabelObject) (spans : List TraceSpan) : List TraceSpan :=
  spans.map (mergeSpan defaults)

/-- The trace transformation performed by `TraceWriter#writeSpan` before it
hands the trace to `queueTrace`: stamp missing end times, then merge the
default labels onto `RPC_SERVER` spans. -/
def writeSpanTrace (defaults : LabelObject) (now : String) (t : Trace) : Trace :=
  { t with spans := mergeDefaultLabels defaults (stampEndTimes now t.spans) }

/-- JSON string escaping used by `JSON.stringify` for the characters that can
occur here: backslash and double quote. -/
def jsonEscapeChar (c : Char) : String :=
  if c = '\\' then "\\\\" else if c = '"' then "\\\"" else String.singleton c

/-- Modelled from the spec: serialized form of one `kind` enum value (the
enum declaration lives in `src/trace.ts`, which is not part of the sources;
the spec names the members RPC_SERVER, RPC_CLIENT and other). -/
def serializeKind : SpanKind → String
  | SpanKind.RPC_SERVER => "RPC_SERVER"
  | SpanKind.RPC_CLIENT => "RPC_CLIENT"
  | SpanKind.SPAN_KIND_UNSPECIFIED => "SPAN_KIND_UNSPECIFIED"

/-- A JSON string literal. -/
def jsonStr (s : String) : String :=
  "\"" ++ String.join (s.toList.map jsonEscapeChar) ++ "\""

/-- JSON serialization of a label object, fields in insertion order. -/
def serializeLabels (m : LabelObject) : String :=
  "\x7b" ++ String.intercalate "," (m.map fun p => jsonStr p.1 ++ ":" ++ jsonStr p.2) ++ "\x7d"

/-- Modelled from the spec: `JSON.stringify` of one span, with the field
shape the spec gives for the wire payload:
`\x7bspanId, name, kind, startTime, endTime, labels\x7d`. -/
def serializeSpan (sp : TraceSpan) : String :=
  "\x7b\"spanId\":" ++ jsonStr sp.spanId ++
  ",\"name\":" ++ jsonStr sp.name ++
  ",\"kind\":" ++ jsonStr (serializeKind sp.kind) ++
  ",\"startTime\":" ++ jsonStr sp.startTime ++
  ",\"endTime\":" ++ jsonStr sp.endTime ++
  ",\"labels\":" ++ serializeLabels sp.labels ++ "\x7d"

/-- Modelled from the spec: `JSON.stringify(trace)` as performed by
`queueTrace`, with the field shape the spec gives for the wire payload:
`\x7bprojectId, traceId, spans: [...]\x7d`. -/
def serializeTrace (t : Trace) : String :=
  "\x7b\"projectId\":" ++ jsonStr t.projectId ++
  ",\"traceId\":" ++ jsonStr t.traceId ++
  ",\"spans\":[" ++ String.intercalate "," (t.spans.map serializeSpan) ++ "]\x7d"

/-- The single flush payload built by `flushBuffer`:
`\x7b"traces":[${buffer.join()}]\x7d` (JavaScript `join()` separates with `","`). -/
def mkPayload (buffer : List String) : String :=
  "\x7b\"traces\":[" ++ String.intercalate "," buffer ++ "]\x7d"

/-- Log levels of the logger collaborator. -/
inductive LogLevel where
  | error
  | warn
  | info
  | debug
deriving DecidableEq

/-- One entry handed to the logger collaborator. -/
structure LogEntry where
  level : LogLevel
  msg : String
deriving DecidableEq

/-- The configuration fields of `TraceWriterConfig` that the writer's
buffering logic reads. -/
structure TraceWriterConfig where
  bufferSize : Nat
  flushDelaySeconds : Nat
deriving DecidableEq

/-- The sentinel `@google-cloud/common` uses for an unresolved project id
(`NO_PROJECT_ID_TOKEN`); `this.projectId` is modelled as `Option String`,
`none` standing for the sentinel. -/
def NO_PROJECT_ID_TOKEN : String := "\x7b\x7bprojectId\x7d\x7d"

/-- The mutable state of a `TraceWriter`, together with the observable
effects (armed callbacks, payloads handed to `publish`, log entries).
`timerArmed` records a pending `setTimeout` armed by `scheduleFlush`;
`pendingImmediateFlush` counts pending `setImmediate(() => this.flushBuffer())`
callbacks armed by `queueTrace`. -/
@[ext]
structure WriterState where
  buffer : List String
  defaultLabels : LabelObject
  isActive : Bool
  projectId : Option String
  timerArmed : Bool
  pendingImmediateFlush : Nat
  published : List String
  logs : List LogEntry
deriving DecidableEq

/-- The string form of `this.projectId` (the sentinel when unresolved). -/
def WriterState.projectIdString (s : WriterState) : String :=
  s.projectId.getD NO_PROJECT_ID_TOKEN

/-- The info log entry `TraceWriter#queueTrace` writes when a deferred trace
is dropped because identity resolution failed. -/
def dropMsg : String := "TraceWriter#queueTrace: No project ID, dropping trace."

/-- `TraceWriter#publish`: records the payload as one outbound request and
logs the target URI. The asynchronous outcome of the request is processed by
`publishOutcome`. -/
def publish (json : String) (s : WriterState) : WriterState :=
  { s with
    published := s.published ++ [json],
    logs := s.logs ++ [⟨LogLevel.info,
      "TraceWriter#publish: Publishing to https://cloudtrace.googleapis.com/v1/projects/"
        ++ s.projectIdString ++ "/traces"⟩] }

/-- `(response && response.statusCode) || 'unknown'`. -/
def statusCodeStr (st : Option Nat) : String :=
  match st with
  | some n => toString n
  | none => "unknown"

/-- The callback `TraceWriter#publish` passes to `this.request`: on error,
one error-level log including the status code when available; on success,
one info-level log. Nothing else happens in either case. -/
def publishOutcome (outcome : Except (Option Nat × String) Nat) (s : WriterState) : WriterState :=
  match outcome with
  | Except.error (st, e) =>
    { s with logs := s.logs ++ [⟨LogLevel.error,
        "TraceWriter#publish: Received error status code " ++ statusCodeStr st
          ++ ". Original error: " ++ e⟩] }
  | Except.ok st =>
    { s with logs := s.logs ++ [⟨LogLevel.info,
        "TraceWriter#publish: Published w/ status code: " ++ toString st⟩] }

/-- `TraceWriter#flushBuffer`: returns immediately when the buffer is empty;
otherwise privatizes the buffer (swapping in an empty one), logs, and hands
the single joined payload to `publish`. -/
def flushBuffer (s : WriterState) : WriterState :=
  if s.buffer = [] then s
  else
    let buffer := s.buffer
    publish (mkPayload buffer)
      { s with
        buffer := [],
        logs := s.logs ++ [⟨LogLevel.debug, "TraceWriter#flushBuffer: Flushing traces"⟩] }

/-- `TraceWriter#scheduleFlush`: logs, flushes, and re-arms the periodic
timer only when the writer is still active. -/
def scheduleFlush (s : WriterState) : WriterState :=
  let s := flushBuffer
    { s with logs := s.logs ++ [⟨LogLevel.info,
        "TraceWriter#scheduleFlush: Performing periodic flush."⟩] }
  if s.isActive then { s with timerArmed := true } else s

/-- `TraceWriter#stop`: sets `isActive` to false. Nothing else — in
particular it does not cancel an armed timer or immediate. -/
def stop (s : WriterState) : WriterState :=
  { s with isActive := false }

/-- The `afterProjectId` closure inside `TraceWriter#queueTrace`: stamps the
project id onto the trace, pushes the serialized trace, logs the buffer
size, and arms a `setImmediate` flush when the buffer has reached
`config.bufferSize`. -/
def afterProjectId (cfg : TraceWriterConfig) (pid : String) (t : Trace)
    (s : WriterState) : WriterState :=
  let t' := { t with projectId := pid }
  let buffer := s.buffer ++ [serializeTrace t']
  let s' := { s with
    buffer := buffer,
    logs := s.logs ++ [⟨LogLevel.info,
      "TraceWriter#queueTrace: buffer.size = " ++ toString buffer.length⟩] }
  if cfg.bufferSize ≤ buffer.length then
    { s' with
      logs := s'.logs ++ [⟨LogLevel.info, "TraceWriter#queueTrace: Trace buffer full, flushing."⟩],
      pendingImmediateFlush := s'.pendingImmediateFlush + 1 }
  else s'

/-- `TraceWriter#queueTrace`. When `this.projectId` is already resolved the
trace is buffered synchronously. Otherwise the enqueue is deferred behind
`this.getProjectId()`; `resolution` is the eventual outcome of that promise:
on success the deferred `afterProjectId` runs, on failure the trace is
dropped with one info log (this call's own rejection handler). -/
def queueTrace (cfg : TraceWriterConfig) (resolution : Except String String)
    (t : Trace) (s : WriterState) : WriterState :=
  match s.projectId with
  | some pid => afterProjectId cfg pid t s
  | none =>
    match resolution with
    | Except.ok pid => afterProjectId cfg pid t s
    | Except.error _ => { s with logs := s.logs ++ [⟨LogLevel.info, dropMsg⟩] }

/-- `TraceWriter#writeSpan`: stamps missing end times, merges the default
labels onto `RPC_SERVER` spans, then queues the trace. -/
def writeSpan (cfg : TraceWriterConfig) (resolution : Except String String)
    (now : String) (t : Trace) (s : WriterState) : WriterState :=
  queueTrace cfg resolution (writeSpanTrace s.defaultLabels now t) s

/-- The externally observable events that drive a `TraceWriter`:
an instrumentation call to `writeSpan`, the periodic `setTimeout` firing,
a size-triggered `setImmediate` firing, a call to `stop`, and the completion
callback of an outbound publish request. -/
inductive Event where
  | write (t : Trace)
  | timerFire
  | immediateFire
  | stopCall
  | publishResult (outcome : Except (Option Nat × String) Nat)

/-- One event step of the writer. A `timerFire` only does something when a
timer is armed (it then runs `scheduleFlush`, which flushes and may re-arm);
an `immediateFire` only does something when a `setImmediate` flush is armed
(it then runs `flushBuffer`). -/
def step (cfg : TraceWriterConfig) (resolution : Except String String)
    (now : String) (ev : Event) (s : WriterState) : WriterState :=
  match ev with
  | Event.write t => writeSpan cfg resolution now t s
  | Event.timerFire =>
    if s.timerArmed then scheduleFlush { s with timerArmed := false } else s
  | Event.immediateFire =>
    match s.pendingImmediateFlush with
    | 0 => s
    | n + 1 => flushBuffer { s with pendingImmediateFlush := n }
  | Event.stopCall => stop s
  | Event.publishResult outcome => publishOutcome outcome s

/-- Processing a sequence of events. -/
def run (cfg : TraceWriterConfig) (resolution : Except String String)
    (now : String) (evs : List Event) (s : WriterState) : WriterState :=
  evs.foldl (fun s ev => step cfg resolution now ev s) s

/-- Modelled from the spec: the label keys of `TraceLabels`
(`src/trace-labels.ts` is not part of the sources; the spec names the
labels' purposes: agent data, host name, instance id, module name,
module version, composite version). -/
def AGENT_DATA : String := "trace.cloud.google.com/agent"

/-- Modelled from the spec: the host-name label key. -/
def GCE_HOSTNAME : String := "trace.cloud.google.com/gce_hostname"

/-- Modelled from the spec: the instance-id label key. -/
def GCE_INSTANCE_ID : String := "trace.cloud.google.com/gce_instance_id"

/-- Modelled from the spec: the module-name label key. -/
def GAE_MODULE_NAME : String := "g.co/gae/app/module"

/-- Modelled from the spec: the module-version label key. -/
def GAE_MODULE_VERSION : String := "g.co/gae/app/module_version"

/-- Modelled from the spec: the composite-version label key. -/
def GAE_VERSION : String := "g.co/gae/app/version"

/-- The `serviceContext` configuration object. -/
structure ServiceContext where
  service : Option String
  version : Option String
  minorVersion : Option String
deriving DecidableEq

/-- JavaScript string truthiness: the empty string (and an absent value) is
falsy. -/
def truthyStr : Option String → Option String
  | some s => if s = "" then none else some s
  | none => none

/-- The default-label construction performed inside `TraceWriter`'s
identity/label initialization (the nested `getHostname`/`getInstanceId`
callbacks): agent data, GCE hostname, optional GCE instance id (JavaScript
truthiness: an instance id of 0 is falsy and is not added), module name
(`serviceContext.service || hostname`), and optional module/composite
version labels. -/
def buildDefaultLabels (pjsonName pjsonVersion hostname : String)
    (instanceId : Option Nat) (svc : ServiceContext) : LabelObject :=
  let l0 := objSet [] AGENT_DATA ("node " ++ pjsonName ++ " v" ++ pjsonVersion)
  let l1 := objSet l0 GCE_HOSTNAME hostname
  let l2 := match instanceId with
    | some i => if i ≠ 0 then objSet l1 GCE_INSTANCE_ID (toString i) else l1
    | none => l1
  let moduleName := (truthyStr svc.service).getD hostname
  let l3 := objSet l2 GAE_MODULE_NAME moduleName
  match truthyStr svc.version with
  | none => l3
  | some v =>
    let l4 := objSet l3 GAE_MODULE_VERSION v
    match truthyStr svc.minorVersion with
    | none => l4
    | some mv =>
      let versionLabel := (if moduleName ≠ "default" then moduleName ++ ":" else "")
        ++ v ++ "." ++ mv
      objSet l4 GAE_VERSION versionLabel

/-- The state threaded through the two asynchronous operations of
`TraceWriter`'s initialization: the `pendingOperations` counter, the
arguments of the calls made to the `cb` callback so far (`none` = success,
`some e` = error), and the writer. -/
structure InitState where
  pendingOperations : Nat
  cbCalls : List (Option String)
  writer : WriterState
deriving DecidableEq

/-- Which of the two asynchronous operations of initialization settles
first. -/
inductive InitOrder where
  | projectFirst
  | labelsFirst
deriving DecidableEq

/-- The `getProjectId().then(...)` continuation of `TraceWriter`'s
initialization: on success, stores the project id, runs `scheduleFlush`,
decrements `pendingOperations` and calls `cb()` when it reaches zero; on
failure, logs one error and calls `cb(err)` (without decrementing). -/
def initProjectBranch (resolution : Except String String) (st : InitState) : InitState :=
  match resolution with
  | Except.ok pid =>
    let w := scheduleFlush { st.writer with projectId := some pid }
    let p := st.pendingOperations - 1
    { pendingOperations := p,
      cbCalls := if p = 0 then st.cbCalls ++ [none] else st.cbCalls,
      writer := w }
  | Except.error e =>
    { st with
      cbCalls := st.cbCalls ++ [some e],
      writer := { st.writer with logs := st.writer.logs ++ [⟨LogLevel.error,
        "TraceWriter#initialize: Unable to acquire the project number automatically "
          ++ "from the GCP metadata service. Original error: " ++ e⟩] } }

/-- The `getHostname`/`getInstanceId` continuation of `TraceWriter`'s
initialization: builds and freezes the default labels, decrements
`pendingOperations` and calls `cb()` when it reaches zero. -/
def initLabelsBranch (labels : LabelObject) (st : InitState) : InitState :=
  let p := st.pendingOperations - 1
  { pendingOperations := p,
    cbCalls := if p = 0 then st.cbCalls ++ [none] else st.cbCalls,
    writer := { st.writer with defaultLabels := labels } }

/-- `TraceWriter#initialize` (named `initWriter` here): both asynchronous
operations settle, in either order; `pendingOperations` starts at 2. -/
def initWriter (resolution : Except String String) (pjsonName pjsonVersion hostname : String)
    (instanceId : Option Nat) (svc : ServiceContext) (order : InitOrder)
    (w : WriterState) : InitState :=
  let labels := buildDefaultLabels pjsonName pjsonVersion hostname instanceId svc
  let st0 : InitState := ⟨2, [], w⟩
  match order with
  | InitOrder.projectFirst => initLabelsBranch labels (initProjectBranch resolution st0)
  | InitOrder.labelsFirst => initProjectBranch resolution (initLabelsBranch labels st0)

/-- A heap of trace objects, indexed by reference: the caller of `writeSpan`
keeps a reference to the trace it passed in, and the source mutates that
object in place. -/
abbrev TraceHeap := List Trace

/-- The caller mutating the trace object it holds a reference to. -/
def mutateTrace (h : TraceHeap) (r : Nat) (t : Trace) : TraceHeap :=
  h.set r t

/-- `TraceWriter#queueTrace` with the argument trace held on the heap: the
`afterProjectId` closure assigns `trace.projectId = projectId` on the
caller's object before serializing it. -/
def heapQueueTrace (cfg : TraceWriterConfig) (resolution : Except String String)
    (h : TraceHeap) (r : Nat) (s : WriterState) : TraceHeap × WriterState :=
  match h[r]? with
  | none => (h, s)
  | some t =>
    match s.projectId with
    | some pid => (h.set r { t with projectId := pid }, afterProjectId cfg pid t s)
    | none =>
      match resolution with
      | Except.ok pid => (h.set r { t with projectId := pid }, afterProjectId cfg pid t s)
      | Except.error _ => (h, { s with logs := s.logs ++ [⟨LogLevel.info, dropMsg⟩] })

/-- `TraceWriter#writeSpan` with the argument trace held on the heap: the
end-time stamping and label merging mutate the caller's span objects in
place, then the trace is queued. -/
def heapWriteSpan (cfg : TraceWriterConfig) (resolution : Except String String)
    (now : String) (h : TraceHeap) (r : Nat) (s : WriterState) : TraceHeap × WriterState :=
  match h[r]? with
  | none => (h, s)
  | some t =>
    let t' := writeSpanTrace s.defaultLabels now t
    heapQueueTrace cfg resolution (h.set r t') r s

/-- `flushBuffer` lifted to heap-and-writer pairs: flushing reads only the
writer state (the buffer of strings), never the heap. -/
def heapFlushBuffer (p : TraceHeap × WriterState) : TraceHeap × WriterState :=
  (p.1, flushBuffer p.2)

/-! ### Derived definitions used in the statements -/

/-- The per-span transformation `writeSpan` applies: stamp the end time if
missing, then merge default labels when the kind is `RPC_SERVER`. -/
def writeSpanSpan (defaults : LabelObject) (now : String) (sp : TraceSpan) : TraceSpan :=
  mergeSpan defaults (stampSpan now sp)

/-- The serialized form a trace takes in the buffer after the `writeSpan` +
`queueTrace` pipeline, with identity `pid`. -/
def encodeTrace (defaults : LabelObject) (now pid : String) (t : Trace) : String :=
  serializeTrace { writeSpanTrace defaults now t with projectId := pid }

/-- Whether an event is an instrumentation write. -/
def eventIsWrite : Event → Bool
  | Event.write _ => true
  | _ => false

/-! ### Concrete demonstration values used by counterexamples and witnesses -/

/-- An `RPC_SERVER` span whose caller already set the labels
`"a" := "caller"` and `"c" := "cv"`, with an empty `endTime`. -/
def demoSpan : TraceSpan :=
  ⟨"s1", "n", SpanKind.RPC_SERVER, "2020-01-01T00:00:00.000Z", "",
    [("a", "caller"), ("c", "cv")]⟩

/-- A trace holding `demoSpan`. -/
def demoTrace : Trace := ⟨"", "t1", [demoSpan]⟩

/-- Default labels colliding with `demoSpan`'s caller-set key `"a"`. -/
def demoDefaults : LabelObject := [("a", "default"), ("b", "bv")]

/-- A fixed current time. -/
def demoNow : String := "2020-01-01T00:00:01.000Z"

/-- A configuration whose buffer threshold is far from reached in the
demonstrations. -/
def demoCfg : TraceWriterConfig := ⟨1000, 30⟩

/-- An initialized, active writer: empty buffer, resolved project id, armed
periodic timer, nothing published. -/
def demoActiveState : WriterState :=
  ⟨[], demoDefaults, true, some "proj", true, 0, [], []⟩

/-- A stopped writer that still holds one buffered trace, with no armed
timer and no armed immediate. -/
def demoStoppedState : WriterState :=
  ⟨[serializeTrace demoTrace], demoDefaults, false, some "proj", false, 0, [], []⟩

/-- An active writer whose project id is still the unresolved sentinel. -/
def demoUnresolvedState : WriterState :=
  ⟨[], demoDefaults, true, none, false, 0, [], []⟩

/-- The number of "No project ID, dropping trace." info entries in a log. -/
def dropLogCount (logs : List LogEntry) : Nat :=
  logs.countP (fun en => decide (en = ⟨LogLevel.info, dropMsg⟩))

/-- The number of error-level entries in a log. -/
def errorLogCount (logs : List LogEntry) : Nat :=
  logs.countP (fun en => decide (en.level = LogLevel.error))

/-! ## Theorems -/

theorem objGet_objSet_self (m : LabelObject) (k v : String) :
    objGet (objSet m k v) k = some v := by
  induction m with
  | nil => simp [objSet, objGet]
  | cons p rest ih =>
    by_cases h : p.1 = k
    · simp [objSet, h, objGet]
    · simp [objSet, h, objGet, ih]

theorem objGet_objSet_ne (m : LabelObject) (k v k' : String) (h : k' ≠ k) :
    objGet (objSet m k v) k' = objGet m k' := by
  have hks : k ≠ k' := Ne.symm h
  induction m with
  | nil => simp [objSet, objGet, hks]
  | cons p rest ih =>
    by_cases hp : p.1 = k
    · subst hp
      simp [objSet, objGet, hks]
    · simp [objSet, hp, objGet, ih]

theorem objGet_objAssign_of_not_mem (t s : LabelObject) (k : String)
    (h : ∀ p ∈ s, p.1 ≠ k) : objGet (objAssign t s) k = objGet t k := by
  induction s generalizing t with
  | nil => rfl
  | cons p rest ih =>
    have hp : p.1 ≠ k := h p (List.mem_cons_self p rest)
    have hrest : ∀ q ∈ rest, q.1 ≠ k := fun q hq => h q (List.mem_cons_of_mem p hq)
    calc objGet (objAssign t (p :: rest)) k
        = objGet (objAssign (objSet t p.1 p.2) rest) k := rfl
      _ = objGet (objSet t p.1 p.2) k := ih _ hrest
      _ = objGet t k := objGet_objSet_ne _ _ _ _ (fun hk => hp hk.symm)

theorem objGet_objAssign_of_get (t s : LabelObject) (k v : String)
    (hnd : (s.map Prod.fst).Nodup) (h : objGet s k = some v) :
    objGet (objAssign t s) k = some v := by
  induction s generalizing t with
  | nil => simp [objGet] at h
  | cons p rest ih =>
    rw [List.map_cons, List.nodup_cons] at hnd
    by_cases hp : p.1 = k
    · have hv : p.2 = v := by
        simpa [objGet, hp] using h
      subst hv
      have hrest : ∀ q ∈ rest, q.1 ≠ k := by
        intro q hq hqk
        apply hnd.1
        have hm : q.1 ∈ List.map Prod.fst rest := List.mem_map_of_mem Prod.fst hq
        rwa [hqk, ← hp] at hm
      calc objGet (objAssign t (p :: rest)) k
          = objGet (objAssign (objSet t p.1 p.2) rest) k := rfl
        _ = objGet (objSet t p.1 p.2) k :=
            objGet_objAssign_of_not_mem _ _ _ hrest
        _ = some p.2 := by rw [hp, objGet_objSet_self]
    · have h' : objGet rest k = some v := by
        simpa [objGet, hp] using h
      exact ih _ hnd.2 h'

theorem writeSpanTrace_spans (defaults : LabelObject) (now : String) (t : Trace) :
    (writeSpanTrace defaults now t).spans = t.spans.map (writeSpanSpan defaults now) := by
  simp only [writeSpanTrace, mergeDefaultLabels, stampEndTimes, List.map_map]
  rfl

theorem stampSpan_labels (now : String) (sp : TraceSpan) :
    (stampSpan now sp).labels = sp.labels := by
  unfold stampSpan
  split <;> rfl

theorem stampSpan_kind (now : String) (sp : TraceSpan) :
    (stampSpan now sp).kind = sp.kind := by
  unfold stampSpan
  split <;> rfl

theorem writeSpanSpan_labels_server (defaults : LabelObject) (now : String) (sp : TraceSpan)
    (hkind : sp.kind = SpanKind.RPC_SERVER) :
    (writeSpanSpan defaults now sp).labels = objAssign sp.labels defaults := by
  unfold writeSpanSpan mergeSpan
  rw [stampSpan_kind, stampSpan_labels]
  simp [hkind]

theorem flushBuffer_isActive (s : WriterState) : (flushBuffer s).isActive = s.isActive := by
  unfold flushBuffer publish
  split <;> rfl

theorem flushBuffer_timerArmed (s : WriterState) :
    (flushBuffer s).timerArmed = s.timerArmed := by
  unfold flushBuffer publish
  split <;> rfl

theorem flushBuffer_pending (s : WriterState) :
    (flushBuffer s).pendingImmediateFlush = s.pendingImmediateFlush := by
  unfold flushBuffer publish
  split <;> rfl

theorem flushBuffer_projectId (s : WriterState) :
    (flushBuffer s).projectId = s.projectId := by
  unfold flushBuffer publish
  split <;> rfl

theorem flushBuffer_defaultLabels (s : WriterState) :
    (flushBuffer s).defaultLabels = s.defaultLabels := by
  unfold flushBuffer publish
  split <;> rfl

theorem flushBuffer_of_empty (s : WriterState) (h : s.buffer = []) : flushBuffer s = s := by
  unfold flushBuffer
  rw [if_pos h]

theorem flushBuffer_published_of_ne (s : WriterState) (h : s.buffer ≠ []) :
    (flushBuffer s).published = s.published ++ [mkPayload s.buffer] := by
  unfold flushBuffer publish
  rw [if_neg h]

theorem flushBuffer_buffer_of_ne (s : WriterState) (h : s.buffer ≠ []) :
    (flushBuffer s).buffer = [] := by
  unfold flushBuffer publish
  rw [if_neg h]

theorem flushBuffer_logs_of_ne (s : WriterState) (h : s.buffer ≠ []) :
    (flushBuffer s).logs = s.logs ++
      [⟨LogLevel.debug, "TraceWriter#flushBuffer: Flushing traces"⟩,
       ⟨LogLevel.info,
        "TraceWriter#publish: Publishing to https://cloudtrace.googleapis.com/v1/projects/"
          ++ s.projectIdString ++ "/traces"⟩] := by
  unfold flushBuffer publish
  rw [if_neg h]
  simp [WriterState.projectIdString, List.append_assoc]

theorem afterProjectId_buffer (cfg : TraceWriterConfig) (pid : String) (t : Trace)
    (s : WriterState) : (afterProjectId cfg pid t s).buffer
      = s.buffer ++ [serializeTrace { t with projectId := pid }] := by
  dsimp only [afterProjectId]
  split <;> rfl

theorem afterProjectId_published (cfg : TraceWriterConfig) (pid : String) (t : Trace)
    (s : WriterState) : (afterProjectId cfg pid t s).published = s.published := by
  dsimp only [afterProjectId]
  split <;> rfl

theorem afterProjectId_projectId (cfg : TraceWriterConfig) (pid : String) (t : Trace)
    (s : WriterState) : (afterProjectId cfg pid t s).projectId = s.projectId := by
  dsimp only [afterProjectId]
  split <;> rfl

theorem afterProjectId_isActive (cfg : TraceWriterConfig) (pid : String) (t : Trace)
    (s : WriterState) : (afterProjectId cfg pid t s).isActive = s.isActive := by
  dsimp only [afterProjectId]
  split <;> rfl

theorem afterProjectId_timerArmed (cfg : TraceWriterConfig) (pid : String) (t : Trace)
    (s : WriterState) : (afterProjectId cfg pid t s).timerArmed = s.timerArmed := by
  dsimp only [afterProjectId]
  split <;> rfl

theorem afterProjectId_defaultLabels (cfg : TraceWriterConfig) (pid : String) (t : Trace)
    (s : WriterState) : (afterProjectId cfg pid t s).defaultLabels = s.defaultLabels := by
  dsimp only [afterProjectId]
  split <;> rfl

theorem afterProjectId_pending (cfg : TraceWriterConfig) (pid : String) (t : Trace)
    (s : WriterState) : (afterProjectId cfg pid t s).pendingImmediateFlush
      = s.pendingImmediateFlush
        + (if cfg.bufferSize ≤ s.buffer.length + 1 then 1 else 0) := by
  dsimp only [afterProjectId]
  simp only [List.length_append, List.length_cons, List.length_nil, Nat.zero_add]
  split <;> simp_all

theorem writeSpan_resolved (cfg : TraceWriterConfig) (resolution : Except String String)
    (now : String) (t : Trace) (s : WriterState) (pid : String)
    (h : s.projectId = some pid) :
    writeSpan cfg resolution now t s
      = afterProjectId cfg pid (writeSpanTrace s.defaultLabels now t) s := by
  unfold writeSpan queueTrace
  rw [h]

/-! ### C4 -/

/-- C4: `flushBuffer` on an empty buffer is a no-op — it returns the state
unchanged, performing no publish call and writing no log. On a non-empty
buffer it synchronously replaces the live buffer with an empty one and
publishes exactly the formerly buffered traces, in their insertion order,
joined with `","` into the single JSON payload `\x7b"traces":[...]\x7d`
(`mkPayload`). -/
theorem flushBuffer_characterization (s : WriterState) :
    flushBuffer s =
      if s.buffer = [] then s
      else { s with
        buffer := [],
        published := s.published ++ [mkPayload s.buffer],
        logs := s.logs ++
          [⟨LogLevel.debug, "TraceWriter#flushBuffer: Flushing traces"⟩,
           ⟨LogLevel.info,
            "TraceWriter#publish: Publishing to https://cloudtrace.googleapis.com/v1/projects/"
              ++ s.projectIdString ++ "/traces"⟩] } := by
  by_cases h : s.buffer = []
  · rw [flushBuffer_of_empty s h, if_pos h]
  · rw [if_neg h]
    apply WriterState.ext <;>
      simp [flushBuffer_buffer_of_ne s h, flushBuffer_published_of_ne s h,
        flushBuffer_logs_of_ne s h, flushBuffer_isActive, flushBuffer_timerArmed,
        flushBuffer_pending, flushBuffer_projectId, flushBuffer_defaultLabels]

/-! ### C2 -/

theorem scheduleFlush_timerArmed_of_inactive (s : WriterState) (h : s.isActive = false) :
    (scheduleFlush s).timerArmed = s.timerArmed := by
  dsimp only [scheduleFlush]
  rw [if_neg]
  · exact flushBuffer_timerArmed _
  · rw [flushBuffer_isActive]
    simp [show WriterState.isActive _ = false from h]

theorem step_timerFire_no_rearm (cfg : TraceWriterConfig)
    (resolution : Except String String) (now : String) (s : WriterState)
    (h : s.isActive = false) :
    (step cfg resolution now Event.timerFire s).timerArmed = false := by
  dsimp only [step]
  by_cases ht : s.timerArmed = true
  · rw [if_pos ht, scheduleFlush_timerArmed_of_inactive { s with timerArmed := false } h]
  · rw [if_neg ht]
    simpa using ht

theorem step_nonwrite_preserves (cfg : TraceWriterConfig)
    (resolution : Except String String) (now : String) (ev : Event) (s : WriterState)
    (hw : eventIsWrite ev = false) (ha : s.isActive = false)
    (ht : s.timerArmed = false) (hp : s.pendingImmediateFlush = 0) :
    (step cfg resolution now ev s).isActive = false ∧
    (step cfg resolution now ev s).timerArmed = false ∧
    (step cfg resolution now ev s).pendingImmediateFlush = 0 ∧
    (step cfg resolution now ev s).published = s.published := by
  cases ev with
  | write t => simp [eventIsWrite] at hw
  | timerFire => simp [step, ht, ha, hp]
  | immediateFire => simp [step, hp, ha, ht]
  | stopCall => exact ⟨rfl, ht, hp, rfl⟩
  | publishResult o =>
    cases o with
    | error p =>
      cases p with
      | mk st e => exact ⟨ha, ht, hp, rfl⟩
    | ok st => exact ⟨ha, ht, hp, rfl⟩

theorem run_nonwrite_published (cfg : TraceWriterConfig)
    (resolution : Except String String) (now : String) :
    ∀ (evs : List Event) (s : WriterState),
      (∀ ev ∈ evs, eventIsWrite ev = false) →
      s.isActive = false → s.timerArmed = false → s.pendingImmediateFlush = 0 →
      (run cfg resolution now evs s).published = s.published := by
  intro evs
  induction evs with
  | nil =>
    intro s _ _ _ _
    rfl
  | cons ev rest ih =>
    intro s hw ha ht hp
    have hev := hw ev (List.mem_cons_self ev rest)
    have hrest : ∀ e ∈ rest, eventIsWrite e = false :=
      fun e he => hw e (List.mem_cons_of_mem ev he)
    obtain ⟨h1, h2, h3, h4⟩ := step_nonwrite_preserves cfg resolution now ev s hev ha ht hp
    calc (run cfg resolution now (ev :: rest) s).published
        = (run cfg resolution now rest (step cfg resolution now ev s)).published := rfl
      _ = (step cfg resolution now ev s).published := ih _ hrest h1 h2 h3
      _ = s.published := h4

/-- C2, counterexample: the claim says that after `stop()` no flush or
publish ever occurs, even from timers armed before `stop()`. In the source,
`stop()` only sets `isActive = false`; it does not cancel the pending
`setTimeout`, and neither `scheduleFlush`'s unconditional `flushBuffer()`
call nor `flushBuffer` itself checks `isActive`. Concretely: one trace is
written, `stop()` is called (nothing published yet), and then the timer
armed before `stop()` fires — one payload is published after `stop()`. -/
theorem stop_flush_after_stop_cex :
    (run demoCfg (Except.ok "proj") demoNow [Event.write demoTrace, Event.stopCall]
      demoActiveState).published = [] ∧
    (run demoCfg (Except.ok "proj") demoNow
      [Event.write demoTrace, Event.stopCall, Event.timerFire]
      demoActiveState).published.length = 1 ∧
    (run demoCfg (Except.ok "proj") demoNow
      [Event.write demoTrace, Event.stopCall, Event.timerFire]
      demoActiveState).isActive = false := by
  exact ⟨rfl, rfl, rfl⟩

/-- C2 (amended): after `stop()` the flush chain is not re-armed — a
periodic timer that fires on a stopped writer performs its (already-armed)
flush but leaves no armed timer behind — and once every callback armed
before `stop()` has fired (no armed timer, no armed immediate), no flush or
publish ever occurs afterwards, regardless of elapsed time or buffer
length, as long as no further `writeSpan` calls are made (a `writeSpan`
after `stop()` can still arm a size-triggered flush, since `queueTrace`
does not check `isActive`). -/
theorem stop_no_rearm_and_quiescent (cfg : TraceWriterConfig)
    (resolution : Except String String) (now : String) (s : WriterState)
    (hstop : s.isActive = false) :
    (step cfg resolution now Event.timerFire s).timerArmed = false ∧
    (s.timerArmed = false → s.pendingImmediateFlush = 0 →
      ∀ evs : List Event, (∀ ev ∈ evs, eventIsWrite ev = false) →
        (run cfg resolution now evs s).published = s.published) := by
  constructor
  · exact step_timerFire_no_rearm cfg resolution now s hstop
  · intro ht hp evs hw
    exact run_nonwrite_published cfg resolution now evs s hw hstop ht hp

/-- C2 witness: the amended theorem applied to a stopped writer with a
non-empty buffer, driven by a timer fire, an immediate fire, a repeated
`stop()` and a publish completion: nothing is published. -/
theorem stop_no_rearm_and_quiescent_witness :
    demoStoppedState.isActive = false ∧
    (step demoCfg (Except.ok "proj") demoNow Event.timerFire demoStoppedState).timerArmed
      = false ∧
    (run demoCfg (Except.ok "proj") demoNow
      [Event.timerFire, Event.immediateFire, Event.stopCall, Event.publishResult (Except.ok 200)]
      demoStoppedState).published = demoStoppedState.published := by
  have h := stop_no_rearm_and_quiescent demoCfg (Except.ok "proj") demoNow demoStoppedState rfl
  exact ⟨rfl, h.1, h.2 rfl rfl _ (by decide)⟩

/-! ### C3 -/

theorem runWrites_below (cfg : TraceWriterConfig) (resolution : Except String String)
    (now pid : String) :
    ∀ (ts : List Trace) (s : WriterState),
      s.projectId = some pid → s.pendingImmediateFlush = 0 →
      s.buffer.length + ts.length < cfg.bufferSize →
      (run cfg resolution now (ts.map Event.write) s).buffer
        = s.buffer ++ ts.map (encodeTrace s.defaultLabels now pid) ∧
      (run cfg resolution now (ts.map Event.write) s).pendingImmediateFlush = 0 ∧
      (run cfg resolution now (ts.map Event.write) s).published = s.published ∧
      (run cfg resolution now (ts.map Event.write) s).projectId = some pid ∧
      (run cfg resolution now (ts.map Event.write) s).defaultLabels = s.defaultLabels := by
  intro ts
  induction ts with
  | nil =>
    intro s hpid hpend _
    exact ⟨by simp [run], hpend, rfl, hpid, rfl⟩
  | cons t rest ih =>
    intro s hpid hpend hlen
    have hstep : step cfg resolution now (Event.write t) s
        = afterProjectId cfg pid (writeSpanTrace s.defaultLabels now t) s :=
      writeSpan_resolved cfg resolution now t s pid hpid
    have hrun : run cfg resolution now ((t :: rest).map Event.write) s
        = run cfg resolution now (rest.map Event.write)
            (afterProjectId cfg pid (writeSpanTrace s.defaultLabels now t) s) := by
      rw [List.map_cons]
      show run cfg resolution now (rest.map Event.write)
          (step cfg resolution now (Event.write t) s) = _
      rw [hstep]
    have hb₁ : (afterProjectId cfg pid (writeSpanTrace s.defaultLabels now t) s).buffer
        = s.buffer ++ [encodeTrace s.defaultLabels now pid t] :=
      afterProjectId_buffer cfg pid _ s
    have hnotfull : ¬ cfg.bufferSize ≤ s.buffer.length + 1 := by
      rw [List.length_cons] at hlen
      omega
    have hp₁ : (afterProjectId cfg pid (writeSpanTrace s.defaultLabels now t)
        s).pendingImmediateFlush = 0 := by
      rw [afterProjectId_pending, if_neg hnotfull, hpend]
    have hpid₁ : (afterProjectId cfg pid (writeSpanTrace s.defaultLabels now t)
        s).projectId = some pid := by
      rw [afterProjectId_projectId]
      exact hpid
    have hlen₁ : (afterProjectId cfg pid (writeSpanTrace s.defaultLabels now t)
        s).buffer.length + rest.length < cfg.bufferSize := by
      rw [hb₁]
      rw [List.length_cons] at hlen
      simp only [List.length_append, List.length_cons, List.length_nil]
      omega
    obtain ⟨B, P, Pub, Pid, DL⟩ := ih _ hpid₁ hp₁ hlen₁
    have hdl : (afterProjectId cfg pid (writeSpanTrace s.defaultLabels now t)
        s).defaultLabels = s.defaultLabels := afterProjectId_defaultLabels cfg pid _ s
    rw [hrun]
    refine ⟨?_, P, by rw [Pub, afterProjectId_published], Pid, by rw [DL, hdl]⟩
    rw [B, hdl, hb₁]
    simp [List.append_assoc]

theorem runWrites_exact (cfg : TraceWriterConfig) (resolution : Except String String)
    (now pid : String) :
    ∀ (ts : List Trace) (s : WriterState),
      s.projectId = some pid → s.pendingImmediateFlush = 0 →
      s.buffer.length + ts.length = cfg.bufferSize → ts ≠ [] →
      (run cfg resolution now (ts.map Event.write) s).buffer
        = s.buffer ++ ts.map (encodeTrace s.defaultLabels now pid) ∧
      (run cfg resolution now (ts.map Event.write) s).pendingImmediateFlush = 1 ∧
      (run cfg resolution now (ts.map Event.write) s).published = s.published := by
  intro ts
  induction ts with
  | nil =>
    intro s _ _ _ hne
    exact absurd rfl hne
  | cons t rest ih =>
    intro s hpid hpend hlen _
    have hstep : step cfg resolution now (Event.write t) s
        = afterProjectId cfg pid (writeSpanTrace s.defaultLabels now t) s :=
      writeSpan_resolved cfg resolution now t s pid hpid
    have hrun : run cfg resolution now ((t :: rest).map Event.write) s
        = run cfg resolution now (rest.map Event.write)
            (afterProjectId cfg pid (writeSpanTrace s.defaultLabels now t) s) := by
      rw [List.map_cons]
      show run cfg resolution now (rest.map Event.write)
          (step cfg resolution now (Event.write t) s) = _
      rw [hstep]
    have hb₁ : (afterProjectId cfg pid (writeSpanTrace s.defaultLabels now t) s).buffer
        = s.buffer ++ [encodeTrace s.defaultLabels now pid t] :=
      afterProjectId_buffer cfg pid _ s
    have hdl : (afterProjectId cfg pid (writeSpanTrace s.defaultLabels now t)
        s).defaultLabels = s.defaultLabels := afterProjectId_defaultLabels cfg pid _ s
    by_cases hr : rest = []
    · subst hr
      have hfull : cfg.bufferSize ≤ s.buffer.length + 1 := by
        simp only [List.length_cons, List.length_nil] at hlen
        omega
      have hp₁ : (afterProjectId cfg pid (writeSpanTrace s.defaultLabels now t)
          s).pendingImmediateFlush = 1 := by
        rw [afterProjectId_pending, if_pos hfull, hpend]
      rw [hrun]
      refine ⟨?_, ?_, ?_⟩
      · show (afterProjectId cfg pid (writeSpanTrace s.defaultLabels now t) s).buffer
          = s.buffer ++ List.map (encodeTrace s.defaultLabels now pid) [t]
        rw [hb₁]
        rfl
      · exact hp₁
      · exact afterProjectId_published cfg pid _ s
    · have hrlen : 1 ≤ rest.length := by
        cases rest with
        | nil => exact absurd rfl hr
        | cons a l => simp
      have hnotfull : ¬ cfg.bufferSize ≤ s.buffer.length + 1 := by
        rw [List.length_cons] at hlen
        omega
      have hp₁ : (afterProjectId cfg pid (writeSpanTrace s.defaultLabels now t)
          s).pendingImmediateFlush = 0 := by
        rw [afterProjectId_pending, if_neg hnotfull, hpend]
      have hpid₁ : (afterProjectId cfg pid (writeSpanTrace s.defaultLabels now t)
          s).projectId = some pid := by
        rw [afterProjectId_projectId]
        exact hpid
      have hlen₁ : (afterProjectId cfg pid (writeSpanTrace s.defaultLabels now t)
          s).buffer.length + rest.length = cfg.bufferSize := by
        rw [hb₁]
        rw [List.length_cons] at hlen
        simp only [List.length_append, List.length_cons, List.length_nil]
        omega
      obtain ⟨B, P, Pub⟩ := ih _ hpid₁ hp₁ hlen₁ hr
      rw [hrun]
      refine ⟨?_, P, by rw [Pub, afterProjectId_published]⟩
      rw [B, hdl, hb₁]
      simp [List.append_assoc]

/-- C3: with a configured buffer threshold `N ≥ 1` and an initialized
writer (resolved project id, empty buffer, no pending flush, nothing
published), writing exactly `N` traces via `writeSpan` arms exactly one
size-triggered flush and publishes nothing yet; when that `setImmediate`
flush fires, exactly one payload is published containing exactly those `N`
traces in insertion order, the buffer is emptied, and no further flush
remains armed. Writing only `N − 1` traces publishes nothing and arms no
flush (no publish happens before the periodic timer elapses). -/
theorem bufferSize_threshold_single_publish (cfg : TraceWriterConfig)
    (resolution : Except String String) (now pid : String) (s : WriterState)
    (ts : List Trace)
    (hpid : s.projectId = some pid) (hbuf : s.buffer = [])
    (hpend : s.pendingImmediateFlush = 0) (hpub : s.published = [])
    (hN : 1 ≤ cfg.bufferSize) (hlen : ts.length = cfg.bufferSize) :
    (run cfg resolution now (ts.map Event.write) s).published = [] ∧
    (run cfg resolution now (ts.map Event.write) s).pendingImmediateFlush = 1 ∧
    (step cfg resolution now Event.immediateFire
      (run cfg resolution now (ts.map Event.write) s)).published
      = [mkPayload (ts.map (encodeTrace s.defaultLabels now pid))] ∧
    (step cfg resolution now Event.immediateFire
      (run cfg resolution now (ts.map Event.write) s)).buffer = [] ∧
    (step cfg resolution now Event.immediateFire
      (run cfg resolution now (ts.map Event.write) s)).pendingImmediateFlush = 0 ∧
    (∀ ts' : List Trace, ts'.length + 1 = cfg.bufferSize →
      (run cfg resolution now (ts'.map Event.write) s).published = [] ∧
      (run cfg resolution now (ts'.map Event.write) s).pendingImmediateFlush = 0) := by
  have hne : ts ≠ [] := by
    intro h
    rw [h] at hlen
    simp only [List.length_nil] at hlen
    omega
  obtain ⟨B, P1, Pub⟩ := runWrites_exact cfg resolution now pid ts s hpid hpend
    (by rw [hbuf]; simpa using hlen) hne
  rw [hbuf] at B
  simp only [List.nil_append] at B
  have hmapne : ts.map (encodeTrace s.defaultLabels now pid) ≠ [] := by
    simpa using hne
  have hstep : step cfg resolution now Event.immediateFire
      (run cfg resolution now (ts.map Event.write) s)
      = flushBuffer { run cfg resolution now (ts.map Event.write) s with
          pendingImmediateFlush := 0 } := by
    dsimp only [step]
    rw [P1]
  have hbne : ({ run cfg resolution now (ts.map Event.write) s with
      pendingImmediateFlush := 0 } : WriterState).buffer ≠ [] := by
    show (run cfg resolution now (ts.map Event.write) s).buffer ≠ []
    rw [B]
    exact hmapne
  refine ⟨by rw [Pub, hpub], P1, ?_, ?_, ?_, ?_⟩
  · rw [hstep, flushBuffer_published_of_ne _ hbne]
    show (run cfg resolution now (ts.map Event.write) s).published
        ++ [mkPayload (run cfg resolution now (ts.map Event.write) s).buffer] = _
    rw [Pub, hpub, B]
    rfl
  · rw [hstep, flushBuffer_buffer_of_ne _ hbne]
  · rw [hstep, flushBuffer_pending]
  · intro ts' hlen'
    obtain ⟨_, P', Pub', _, _⟩ := runWrites_below cfg resolution now pid ts' s hpid hpend
      (by rw [hbuf]; simp; omega)
    exact ⟨by rw [Pub', hpub], P'⟩

/-- C3 witness: threshold 2; writing two traces arms one flush, firing it
publishes exactly one payload with both traces; writing one trace arms
nothing and publishes nothing. -/
theorem bufferSize_threshold_single_publish_witness :
    (run ⟨2, 30⟩ (Except.ok "proj") demoNow
      [Event.write demoTrace, Event.write demoTrace] demoActiveState).published = [] ∧
    (run ⟨2, 30⟩ (Except.ok "proj") demoNow
      [Event.write demoTrace, Event.write demoTrace]
      demoActiveState).pendingImmediateFlush = 1 ∧
    (step ⟨2, 30⟩ (Except.ok "proj") demoNow Event.immediateFire
      (run ⟨2, 30⟩ (Except.ok "proj") demoNow
        [Event.write demoTrace, Event.write demoTrace] demoActiveState)).published
      = [mkPayload ([demoTrace, demoTrace].map
          (encodeTrace demoActiveState.defaultLabels demoNow "proj"))] ∧
    (run ⟨2, 30⟩ (Except.ok "proj") demoNow [Event.write demoTrace]
      demoActiveState).published = [] ∧
    (run ⟨2, 30⟩ (Except.ok "proj") demoNow [Event.write demoTrace]
      demoActiveState).pendingImmediateFlush = 0 := by
  have h := bufferSize_threshold_single_publish ⟨2, 30⟩ (Except.ok "proj") demoNow "proj"
    demoActiveState [demoTrace, demoTrace] rfl rfl rfl rfl (by decide) rfl
  have h' := h.2.2.2.2.2 [demoTrace] rfl
  exact ⟨h.1, h.2.1, h.2.2.1, h'.1, h'.2⟩

/-! ### C5 -/

theorem mergeSpan_endTime (defaults : LabelObject) (sp : TraceSpan) :
    (mergeSpan defaults sp).endTime = sp.endTime := by
  unfold mergeSpan
  split <;> rfl

theorem stampSpan_endTime (now : String) (sp : TraceSpan) :
    (stampSpan now sp).endTime = if sp.endTime = "" then now else sp.endTime := by
  unfold stampSpan
  split <;> simp [*]

/-- C5: buffer invariant — a trace that enters the buffer through
`writeSpan` followed by `queueTrace` is buffered as the serialization of
the stamped trace (`encodeTrace`), every one of whose spans has a non-empty
`endTime`: `writeSpan` stamps the current time onto any span whose
`endTime` is the empty string before the trace is enqueued, and the
serialized trace's spans are exactly the stamped ones. -/
theorem writeSpan_stamps_endTime (cfg : TraceWriterConfig)
    (resolution : Except String String) (now : String) (t : Trace) (s : WriterState)
    (pid : String) (hnow : now ≠ "") (hpid : s.projectId = some pid) :
    (writeSpan cfg resolution now t s).buffer
      = s.buffer ++ [encodeTrace s.defaultLabels now pid t] ∧
    ({ writeSpanTrace s.defaultLabels now t with projectId := pid } : Trace).spans
      = (writeSpanTrace s.defaultLabels now t).spans ∧
    ∀ sp ∈ (writeSpanTrace s.defaultLabels now t).spans, sp.endTime ≠ "" := by
  refine ⟨?_, rfl, ?_⟩
  · rw [writeSpan_resolved cfg resolution now t s pid hpid, afterProjectId_buffer]
    rfl
  · intro sp hsp
    rw [writeSpanTrace_spans] at hsp
    obtain ⟨sp₀, _, rfl⟩ := List.mem_map.mp hsp
    show (writeSpanSpan s.defaultLabels now sp₀).endTime ≠ ""
    unfold writeSpanSpan
    rw [mergeSpan_endTime, stampSpan_endTime]
    by_cases he : sp₀.endTime = ""
    · rw [if_pos he]
      exact hnow
    · rw [if_neg he]
      exact he

/-- C5 witness: the invariant at a concrete write on an initialized
writer. -/
theorem writeSpan_stamps_endTime_witness :
    demoNow ≠ "" ∧
    demoActiveState.projectId = some "proj" ∧
    (writeSpan demoCfg (Except.ok "proj") demoNow demoTrace demoActiveState).buffer
      = demoActiveState.buffer
        ++ [encodeTrace demoActiveState.defaultLabels demoNow "proj" demoTrace] ∧
    ∀ sp ∈ (writeSpanTrace demoActiveState.defaultLabels demoNow demoTrace).spans,
      sp.endTime ≠ "" := by
  have h := writeSpan_stamps_endTime demoCfg (Except.ok "proj") demoNow demoTrace
    demoActiveState "proj" (by decide) rfl
  exact ⟨by decide, rfl, h.1, h.2.2⟩

/-- C6: if identity (project id) resolution fails, the callback passed to
initialization is invoked exactly once, with the error — in both settle
orders of the two asynchronous operations (the labels branch decrements
`pendingOperations` from 2 to 1, never reaching 0, and the rejection
handler calls `cb(err)` directly) — and a trace written via `writeSpan`
while the project id is unresolved is never appended to the buffer (and
since every published payload is drained from the buffer, it is never
included in any published payload): the write leaves both the buffer and
the published list unchanged. -/
theorem initWriter_failure_cb_and_drop (e pjsonName pjsonVersion hostname : String)
    (instanceId : Option Nat) (svc : ServiceContext) (order : InitOrder) (w : WriterState)
    (cfg : TraceWriterConfig) (now : String) (t : Trace) (s : WriterState)
    (hs : s.projectId = none) :
    (initWriter (Except.error e) pjsonName pjsonVersion hostname instanceId svc
      order w).cbCalls = [some e] ∧
    (writeSpan cfg (Except.error e) now t s).buffer = s.buffer ∧
    (writeSpan cfg (Except.error e) now t s).published = s.published := by
  refine ⟨?_, ?_, ?_⟩
  · cases order <;> rfl
  · unfold writeSpan queueTrace
    rw [hs]
  · unfold writeSpan queueTrace
    rw [hs]

/-- C6 witness: a failed resolution with a concrete error, in the
projects-settles-first order, and a concrete dropped write. -/
theorem initWriter_failure_cb_and_drop_witness :
    demoUnresolvedState.projectId = none ∧
    (initWriter (Except.error "no id") "@google-cloud/trace-agent" "2.8.0" "host" none
      ⟨none, none, none⟩ InitOrder.projectFirst demoActiveState).cbCalls = [some "no id"] ∧
    (writeSpan demoCfg (Except.error "no id") demoNow demoTrace
      demoUnresolvedState).buffer = demoUnresolvedState.buffer ∧
    (writeSpan demoCfg (Except.error "no id") demoNow demoTrace
      demoUnresolvedState).published = demoUnresolvedState.published := by
  have h := initWriter_failure_cb_and_drop "no id" "@google-cloud/trace-agent" "2.8.0"
    "host" none ⟨none, none, none⟩ InitOrder.projectFirst demoActiveState demoCfg demoNow
    demoTrace demoUnresolvedState rfl
  exact ⟨rfl, h.1, h.2.1, h.2.2⟩

/-- C7, counterexample: the claim says that when identity resolution fails,
exactly one informational drop log entry is emitted in total for all the
deferred traces. In the source, every `queueTrace` call installs its own
rejection handler on `this.getProjectId()`, and each handler logs — so two
deferred traces produce two drop log entries, not one. -/
theorem drop_log_per_trace_cex :
    dropLogCount ((run demoCfg (Except.error "resolution failed") demoNow
      [Event.write demoTrace, Event.write demoTrace] demoUnresolvedState).logs) = 2 ∧
    ¬ dropLogCount ((run demoCfg (Except.error "resolution failed") demoNow
      [Event.write demoTrace, Event.write demoTrace] demoUnresolvedState).logs) = 1 := by
  exact ⟨rfl, by decide⟩

/-- C7 (amended): when identity resolution ultimately fails, every trace
deferred behind the pending resolution is dropped (the buffer and the
published list are unchanged) and one informational log entry about the
drop is emitted per dropped trace — `k` writes produce exactly `k` drop
entries, not one in total. -/
theorem drop_log_count_amended (cfg : TraceWriterConfig) (e now : String) :
    ∀ (ts : List Trace) (s : WriterState), s.projectId = none →
      dropLogCount (run cfg (Except.error e) now (ts.map Event.write) s).logs
        = dropLogCount s.logs + ts.length ∧
      (run cfg (Except.error e) now (ts.map Event.write) s).buffer = s.buffer ∧
      (run cfg (Except.error e) now (ts.map Event.write) s).published = s.published := by
  intro ts
  induction ts with
  | nil =>
    intro s _
    exact ⟨by simp [run], rfl, rfl⟩
  | cons t rest ih =>
    intro s hs
    have hstep : step cfg (Except.error e) now (Event.write t) s
        = { s with logs := s.logs ++ [⟨LogLevel.info, dropMsg⟩] } := by
      dsimp only [step]
      unfold writeSpan queueTrace
      rw [hs]
    have hrun : run cfg (Except.error e) now ((t :: rest).map Event.write) s
        = run cfg (Except.error e) now (rest.map Event.write)
            { s with logs := s.logs ++ [⟨LogLevel.info, dropMsg⟩] } := by
      rw [List.map_cons]
      show run cfg (Except.error e) now (rest.map Event.write)
          (step cfg (Except.error e) now (Event.write t) s) = _
      rw [hstep]
    obtain ⟨D, B, P⟩ := ih { s with logs := s.logs ++ [⟨LogLevel.info, dropMsg⟩] } hs
    have hd : dropLogCount ({ s with
        logs := s.logs ++ [⟨LogLevel.info, dropMsg⟩] } : WriterState).logs
        = dropLogCount s.logs + 1 := by
      show dropLogCount (s.logs ++ [⟨LogLevel.info, dropMsg⟩]) = dropLogCount s.logs + 1
      unfold dropLogCount
      rw [List.countP_append]
      simp
    rw [hrun]
    refine ⟨?_, B, P⟩
    rw [D, hd, List.length_cons]
    omega

/-- C7 witness: the amended count at two concrete dropped writes. -/
theorem drop_log_count_amended_witness :
    demoUnresolvedState.projectId = none ∧
    dropLogCount (run demoCfg (Except.error "resolution failed") demoNow
      ([demoTrace, demoTrace].map Event.write) demoUnresolvedState).logs
      = dropLogCount demoUnresolvedState.logs + 2 ∧
    (run demoCfg (Except.error "resolution failed") demoNow
      ([demoTrace, demoTrace].map Event.write) demoUnresolvedState).buffer
      = demoUnresolvedState.buffer := by
  have h := drop_log_count_amended demoCfg "resolution failed" demoNow
    [demoTrace, demoTrace] demoUnresolvedState rfl
  exact ⟨rfl, h.1, h.2.1⟩

/-- C8: when the transport rejects the publish call for a non-empty batch,
exactly one error-level log entry is produced, and it references the
publish failure (it is the `TraceWriter#publish: Received error status
code ...` entry); the failed batch is not re-appended (the buffer stays
empty); exactly one payload was handed to the transport and no second one
is (no retry); and no error propagates to the caller (the model is a total
function on states — the source's `request` callback only logs). -/
theorem publish_failure_single_error_log (s : WriterState) (st : Option Nat) (e : String)
    (hbuf : s.buffer ≠ []) :
    (publishOutcome (Except.error (st, e)) (flushBuffer s)).published
      = s.published ++ [mkPayload s.buffer] ∧
    (publishOutcome (Except.error (st, e)) (flushBuffer s)).buffer = [] ∧
    (publishOutcome (Except.error (st, e)) (flushBuffer s)).logs
      = s.logs ++
        [⟨LogLevel.debug, "TraceWriter#flushBuffer: Flushing traces"⟩,
         ⟨LogLevel.info,
          "TraceWriter#publish: Publishing to https://cloudtrace.googleapis.com/v1/projects/"
            ++ s.projectIdString ++ "/traces"⟩,
         ⟨LogLevel.error, "TraceWriter#publish: Received error status code "
            ++ statusCodeStr st ++ ". Original error: " ++ e⟩] ∧
    errorLogCount (publishOutcome (Except.error (st, e)) (flushBuffer s)).logs
      = errorLogCount s.logs + 1 := by
  have hlogs : (publishOutcome (Except.error (st, e)) (flushBuffer s)).logs
      = (flushBuffer s).logs ++ [⟨LogLevel.error,
          "TraceWriter#publish: Received error status code " ++ statusCodeStr st
            ++ ". Original error: " ++ e⟩] := rfl
  refine ⟨?_, ?_, ?_, ?_⟩
  · show (flushBuffer s).published = s.published ++ [mkPayload s.buffer]
    exact flushBuffer_published_of_ne s hbuf
  · show (flushBuffer s).buffer = []
    exact flushBuffer_buffer_of_ne s hbuf
  · rw [hlogs, flushBuffer_logs_of_ne s hbuf]
    simp [List.append_assoc]
  · rw [hlogs, flushBuffer_logs_of_ne s hbuf]
    unfold errorLogCount
    simp [List.countP_append, List.countP_cons]

/-- C8 witness: a rejected publish of a stopped writer's non-empty buffer,
with status 500. -/
theorem publish_failure_single_error_log_witness :
    demoStoppedState.buffer ≠ [] ∧
    (publishOutcome (Except.error (some 500, "network"))
      (flushBuffer demoStoppedState)).published
      = demoStoppedState.published ++ [mkPayload demoStoppedState.buffer] ∧
    (publishOutcome (Except.error (some 500, "network"))
      (flushBuffer demoStoppedState)).buffer = [] ∧
    errorLogCount (publishOutcome (Except.error (some 500, "network"))
      (flushBuffer demoStoppedState)).logs
      = errorLogCount demoStoppedState.logs + 1 := by
  have h := publish_failure_single_error_log demoStoppedState (some 500) "network"
    (by decide)
  exact ⟨by decide, h.1, h.2.1, h.2.2.2⟩

/-! ### C1 -/

/-- C1, counterexample: the claim says a caller-set key survives the merge
with its caller-provided value ("the merge never overwrites an existing
key"). In the source the merge is `Object.assign(spanData.labels,
this.defaultLabels)`, whose source operand overwrites the target: with
default labels `demoDefaults` (which bind `"a" := "default"`) and the
`RPC_SERVER` span `demoSpan` whose caller already set `"a" := "caller"`,
after `writeSpan` the span's label `"a"` is `"default"`, not `"caller"`. -/
theorem writeSpan_defaultLabels_overwrite_caller_cex :
    ((writeSpanTrace demoDefaults demoNow demoTrace).spans.map
      (fun sp => objGet sp.labels "a")) = [some "default"] ∧
    ((writeSpanTrace demoDefaults demoNow demoTrace).spans.map
      (fun sp => objGet sp.labels "a")) ≠ [some "caller"] := by
  constructor
  · rfl
  · decide

/-- C1 (amended): for every trace passed to `writeSpan` and every span in it
of kind `RPC_SERVER`, after `writeSpan` every key of the frozen
`DefaultLabels` map is present in that span's labels with the
`DefaultLabels` value — including keys the caller had already set, whose
values are overwritten (the merge is `Object.assign` with the default
labels as source, so the default labels win on collision); keys not present
in `DefaultLabels` keep their caller-provided values. -/
theorem writeSpan_defaultLabels_merge_amended
    (defaults : LabelObject) (now : String) (t : Trace) (i : Nat) (sp : TraceSpan)
    (hnd : (defaults.map Prod.fst).Nodup)
    (hsp : t.spans[i]? = some sp)
    (hkind : sp.kind = SpanKind.RPC_SERVER) :
    ∃ sp', (writeSpanTrace defaults now t).spans[i]? = some sp' ∧
      (∀ k v, objGet defaults k = some v → objGet sp'.labels k = some v) ∧
      (∀ k, (∀ p ∈ defaults, p.1 ≠ k) → objGet sp'.labels k = objGet sp.labels k) := by
  refine ⟨writeSpanSpan defaults now sp, ?_, ?_, ?_⟩
  · rw [writeSpanTrace_spans, List.getElem?_map, hsp]
    rfl
  · intro k v hv
    rw [writeSpanSpan_labels_server defaults now sp hkind]
    exact objGet_objAssign_of_get _ _ _ _ hnd hv
  · intro k hk
    rw [writeSpanSpan_labels_server defaults now sp hkind]
    exact objGet_objAssign_of_not_mem _ _ _ hk

/-- C1 witness: the amended theorem applied to `demoTrace` and
`demoDefaults`. -/
theorem writeSpan_defaultLabels_merge_amended_witness :
    (demoDefaults.map Prod.fst).Nodup ∧
    demoTrace.spans[0]? = some demoSpan ∧
    demoSpan.kind = SpanKind.RPC_SERVER ∧
    (∃ sp', (writeSpanTrace demoDefaults demoNow demoTrace).spans[0]? = some sp' ∧
      (∀ k v, objGet demoDefaults k = some v → objGet sp'.labels k = some v) ∧
      (∀ k, (∀ p ∈ demoDefaults, p.1 ≠ k) →
        objGet sp'.labels k = objGet demoSpan.labels k)) := by
  refine ⟨by decide, rfl, rfl, ?_⟩
  exact writeSpan_defaultLabels_merge_amended demoDefaults demoNow demoTrace 0 demoSpan
    (by decide) rfl rfl

/-! ### C9 and C10: the heap view of `writeSpan` -/

theorem heapWriteSpan_resolved (cfg : TraceWriterConfig)
    (resolution : Except String String) (now : String) (h : TraceHeap) (r : Nat)
    (t : Trace) (s : WriterState) (pid : String)
    (hr : h[r]? = some t) (hpid : s.projectId = some pid) :
    heapWriteSpan cfg resolution now h r s
      = ((h.set r (writeSpanTrace s.defaultLabels now t)).set r
          { writeSpanTrace s.defaultLabels now t with projectId := pid },
         afterProjectId cfg pid (writeSpanTrace s.defaultLabels now t) s) := by
  have hlt : r < h.length := by
    by_contra hc
    push_neg at hc
    rw [List.getElem?_eq_none hc] at hr
    exact Option.noConfusion hr
  have hset : (h.set r (writeSpanTrace s.defaultLabels now t))[r]?
      = some (writeSpanTrace s.defaultLabels now t) :=
    List.getElem?_set_eq_of_lt _ hlt
  simp only [heapWriteSpan, heapQueueTrace, hr, hset, hpid]

/-- C9: buffer entries are point-in-time snapshots. A trace is serialized
to a string by `JSON.stringify` at enqueue time, so mutating the caller's
trace object to an arbitrary `t₂` after `writeSpan` has returned does not
change what a later flush publishes: for every mutation `t₂`, the flush
publishes exactly the serialization the trace had at enqueue time
(`encodeTrace` of the original `t`). -/
theorem enqueue_snapshot_immutable (cfg : TraceWriterConfig)
    (resolution : Except String String) (now : String) (h : TraceHeap) (r : Nat)
    (t : Trace) (s : WriterState) (pid : String)
    (hr : h[r]? = some t) (hpid : s.projectId = some pid) :
    ∀ t₂ : Trace,
      (heapFlushBuffer (mutateTrace (heapWriteSpan cfg resolution now h r s).1 r t₂,
        (heapWriteSpan cfg resolution now h r s).2)).2.published
        = s.published ++ [mkPayload (s.buffer ++ [encodeTrace s.defaultLabels now pid t])] := by
  intro t₂
  rw [heapWriteSpan_resolved cfg resolution now h r t s pid hr hpid]
  show (flushBuffer (afterProjectId cfg pid (writeSpanTrace s.defaultLabels now t)
    s)).published = _
  have hb : (afterProjectId cfg pid (writeSpanTrace s.defaultLabels now t) s).buffer
      = s.buffer ++ [encodeTrace s.defaultLabels now pid t] :=
    afterProjectId_buffer cfg pid _ s
  have hbne : (afterProjectId cfg pid (writeSpanTrace s.defaultLabels now t) s).buffer
      ≠ [] := by
    rw [hb]
    simp
  rw [flushBuffer_published_of_ne _ hbne, hb, afterProjectId_published]

/-- C9 witness: a concrete write on a one-trace heap, followed by a
mutation that replaces the caller's object entirely; the flushed payload is
the enqueue-time serialization. -/
theorem enqueue_snapshot_immutable_witness :
    ([demoTrace] : TraceHeap)[0]? = some demoTrace ∧
    demoActiveState.projectId = some "proj" ∧
    (heapFlushBuffer (mutateTrace
        (heapWriteSpan demoCfg (Except.ok "proj") demoNow [demoTrace] 0
          demoActiveState).1 0 ⟨"mutated", "t2", []⟩,
        (heapWriteSpan demoCfg (Except.ok "proj") demoNow [demoTrace] 0
          demoActiveState).2)).2.published
      = demoActiveState.published
        ++ [mkPayload (demoActiveState.buffer
          ++ [encodeTrace demoActiveState.defaultLabels demoNow "proj" demoTrace])] := by
  exact ⟨rfl, rfl, enqueue_snapshot_immutable demoCfg (Except.ok "proj") demoNow
    [demoTrace] 0 demoTrace demoActiveState "proj" rfl rfl ⟨"mutated", "t2", []⟩⟩

/-- C10: `writeSpan` mutates its argument in place. After `writeSpan(t)`
followed by the synchronous enqueue on a resolved writer, the caller's own
trace object (the heap slot it holds a reference to) carries the full
transformation: its `projectId` has been overwritten with the resolved id,
its spans are the stamped-and-merged originals — a span whose `endTime` was
the empty string now carries the stamped time, and a span of kind
`RPC_SERVER` now carries `Object.assign(labels, defaultLabels)`. -/
theorem writeSpan_mutates_in_place (cfg : TraceWriterConfig)
    (resolution : Except String String) (now : String) (h : TraceHeap) (r : Nat)
    (t : Trace) (s : WriterState) (pid : String)
    (hr : h[r]? = some t) (hpid : s.projectId = some pid) :
    (heapWriteSpan cfg resolution now h r s).1[r]?
      = some { writeSpanTrace s.defaultLabels now t with projectId := pid } ∧
    ({ writeSpanTrace s.defaultLabels now t with projectId := pid } : Trace).projectId
      = pid ∧
    ({ writeSpanTrace s.defaultLabels now t with projectId := pid } : Trace).spans
      = t.spans.map (writeSpanSpan s.defaultLabels now) ∧
    (∀ sp ∈ t.spans, sp.endTime = ""
      → (writeSpanSpan s.defaultLabels now sp).endTime = now) ∧
    (∀ sp ∈ t.spans, sp.kind = SpanKind.RPC_SERVER
      → (writeSpanSpan s.defaultLabels now sp).labels
          = objAssign sp.labels s.defaultLabels) := by
  have hlt : r < h.length := by
    by_contra hc
    push_neg at hc
    rw [List.getElem?_eq_none hc] at hr
    exact Option.noConfusion hr
  refine ⟨?_, rfl, ?_, ?_, ?_⟩
  · rw [heapWriteSpan_resolved cfg resolution now h r t s pid hr hpid]
    show ((h.set r (writeSpanTrace s.defaultLabels now t)).set r
      { writeSpanTrace s.defaultLabels now t with projectId := pid })[r]? = _
    exact List.getElem?_set_eq_of_lt _ (by simpa using hlt)
  · show (writeSpanTrace s.defaultLabels now t).spans = _
    exact writeSpanTrace_spans s.defaultLabels now t
  · intro sp _ he
    unfold writeSpanSpan
    rw [mergeSpan_endTime, stampSpan_endTime, if_pos he]
  · intro sp _ hkind
    exact writeSpanSpan_labels_server s.defaultLabels now sp hkind

/-- C10 witness: the in-place mutation observed on a concrete one-trace
heap. -/
theorem writeSpan_mutates_in_place_witness :
    ([demoTrace] : TraceHeap)[0]? = some demoTrace ∧
    demoActiveState.projectId = some "proj" ∧
    (heapWriteSpan demoCfg (Except.ok "proj") demoNow [demoTrace] 0
      demoActiveState).1[0]?
      = some { writeSpanTrace demoActiveState.defaultLabels demoNow demoTrace with
          projectId := "proj" } ∧
    (∀ sp ∈ demoTrace.spans, sp.endTime = ""
      → (writeSpanSpan demoActiveState.defaultLabels demoNow sp).endTime = demoNow) ∧
    (∀ sp ∈ demoTrace.spans, sp.kind = SpanKind.RPC_SERVER
      → (writeSpanSpan demoActiveState.defaultLabels demoNow sp).labels
          = objAssign sp.labels demoActiveState.defaultLabels) := by
  have h := writeSpan_mutates_in_place demoCfg (Except.ok "proj") demoNow [demoTrace] 0
    demoTrace demoActiveState "proj" rfl rfl
  exact ⟨rfl, rfl, h.1, h.2.2.2.1, h.2.2.2.2⟩

end CloudTrace
